import Mathlib

/-!
Verification development for the crickedge analytics pipeline.

Shallow embedding of the numerical core of the repository:
bucketing and the contextual probability model
(scripts/build_statistical_bucket_model.py, scripts/build_stabilized_model.py),
the rolling backtest (scripts/build_rolling_backtest.py),
the Elo rating engine (scripts/build_elo_ratings.py),
the trade simulations (scripts/build_corrected_simulation.py,
scripts/edge_simulation.py) and odds normalization
(scripts/normalize_odds.py).

Python floats are modelled as real numbers where transcendental functions
occur (the Elo logistic) and as rationals elsewhere; CSV cells that may be
the empty string are modelled as Option values; Python dicts accumulating
counts are modelled as total functions from keys to counts (absence of a
key corresponds to the count (0, 0), and a key is present in the dict
exactly when its accumulated total is positive).
-/

namespace Crickedge

/-- A game-state snapshot row of over_state_snapshots_enriched.csv, restricted
to the fields read by the bucketing and backtest code.  The year is extracted
from the joined match date (get_year).  Fields that may be the empty string in
the CSV (runs_so_far, required_run_rate, elo_rating_difference) are Options. -/
structure Snap where
  matchId : String
  year : ℤ
  overNumber : ℤ
  wicketsSoFar : ℤ
  inningsNumber : ℤ
  runsSoFar : Option ℚ
  requiredRunRate : Option ℚ
  battingTeam : String
  eventualWinner : String
  eloDiff : Option ℚ
  deriving DecidableEq, Repr

/-- over_bucket from build_rolling_backtest.py (identical in
build_statistical_bucket_model.py). -/
def over_bucket (over_num : ℤ) : String :=
  if over_num ≤ 3 then "1-3"
  else if over_num ≤ 6 then "4-6"
  else if over_num ≤ 10 then "7-10"
  else if over_num ≤ 15 then "11-15"
  else "16-20"

/-- wickets_bucket from build_rolling_backtest.py. -/
def wickets_bucket (wickets : ℤ) : String :=
  if wickets ≤ 1 then "0-1"
  else if wickets ≤ 3 then "2-3"
  else if wickets ≤ 6 then "4-6"
  else "7+"

/-- run_pressure_bucket from build_rolling_backtest.py.  First-innings rows,
and second-innings rows missing runs_so_far or required_run_rate, collapse to
the sentinel "first_innings" (over_number is always a populated numeric field
in these rows, so only the two optional fields are tested). -/
def run_pressure_bucket (r : Snap) : String :=
  if r.inningsNumber = 1 then "first_innings"
  else
    match r.runsSoFar, r.requiredRunRate with
    | some runs, some rrr =>
      let overQ : ℚ := (r.overNumber : ℚ)
      let current_rr : ℚ := if 0 < overQ then runs / (overQ * 6) * 6 else 0
      let pressure : ℚ := rrr - current_rr
      if pressure ≤ -4 then "very_low"
      else if pressure ≤ -1 then "low"
      else if pressure ≤ 1 then "neutral"
      else if pressure ≤ 4 then "high"
      else "very_high"
    | _, _ => "first_innings"

/-- elo_diff_bucket from build_rolling_backtest.py lines 86-99 (identical in
build_statistical_bucket_model.py lines 81-94).  The empty CSV cell is the
none case. -/
def elo_diff_bucket (elo_diff : Option ℚ) : String :=
  match elo_diff with
  | none => "neutral"
  | some d =>
    if 75 < d then "strong_advantage"
    else if 25 < d then "moderate_advantage"
    else if -25 ≤ d then "neutral"
    else if -75 ≤ d then "moderate_disadvantage"
    else "strong_disadvantage"

/-- The 4-tuple context key type: progress phase, losses, pressure,
rating differential. -/
abbrev Key4 := String × String × String × String

/-- bucketize from build_rolling_backtest.py. -/
def bucketize (r : Snap) : Key4 :=
  (over_bucket r.overNumber, wickets_bucket r.wicketsSoFar,
   run_pressure_bucket r, elo_diff_bucket r.eloDiff)

/-- Level-2 prefix of a context key: drop the rating-differential dimension. -/
def key2 (k : Key4) : String × String × String := (k.1, k.2.1, k.2.2.1)

/-- Level-3 prefix: drop pressure as well. -/
def key3 (k : Key4) : String × String := (k.1, k.2.1)

/-- Did the batting side of a snapshot eventually win?  (The favorable-outcome
test row[batting_team] == row[eventual_winner].) -/
def snapWin (r : Snap) : Bool := r.battingTeam = r.eventualWinner

/-- MIN_SAMPLE = 50, the minimum stabilization sample size. -/
def MIN_SAMPLE : ℕ := 50

/-- Generic keyed accumulation of (total, wins) pairs, modelling the Python
dict-of-counters pattern: each element adds weight wt to the total and ww to
the wins of its key.  A total function stands for the dict; keys never touched
stay at (0, 0). -/
def aggBy {α κ : Type} [DecidableEq κ] (f : α → κ) (wt ww : α → ℕ)
    (rows : List α) : κ → ℕ × ℕ :=
  rows.foldl
    (fun m r => fun k => if f r = k then ((m k).1 + wt r, (m k).2 + ww r) else m k)
    (fun _ => (0, 0))

/-- build_model_from_rows from build_rolling_backtest.py lines 110-154,
returning the closure lookup.  counts is the per-key accumulation over
training rows; the coarser levels pool the same totals by key prefix (the
source pools them from the per-key dict, which accumulates the same sums).
The level-1 branch tests dict membership (k1 in counts) together with the
minimum sample; membership of a key is a positive accumulated total. -/
def build_model_from_rows (train : List Snap) : Snap → ℚ :=
  let wWin : Snap → ℕ := fun r => if snapWin r then 1 else 0
  let counts := aggBy bucketize (fun _ => 1) wWin train
  let level2 := aggBy (fun r => key2 (bucketize r)) (fun _ => 1) wWin train
  let level3 := aggBy (fun r => key3 (bucketize r)) (fun _ => 1) wWin train
  let level4 := aggBy (fun r => (bucketize r).1) (fun _ => 1) wWin train
  let g := aggBy (fun _ => ()) (fun _ => 1) wWin train ()
  let global_prob : ℚ := if 0 < g.1 then (g.2 : ℚ) / (g.1 : ℚ) else 1/2
  fun q =>
    let k1 := bucketize q
    if 0 < (counts k1).1 ∧ MIN_SAMPLE ≤ (counts k1).1 then
      ((counts k1).2 : ℚ) / ((counts k1).1 : ℚ)
    else if MIN_SAMPLE ≤ (level2 (key2 k1)).1 then
      ((level2 (key2 k1)).2 : ℚ) / ((level2 (key2 k1)).1 : ℚ)
    else if MIN_SAMPLE ≤ (level3 (key3 k1)).1 then
      ((level3 (key3 k1)).2 : ℚ) / ((level3 (key3 k1)).1 : ℚ)
    else if MIN_SAMPLE ≤ (level4 k1.1).1 then
      ((level4 k1.1).2 : ℚ) / ((level4 k1.1).1 : ℚ)
    else global_prob

/-- A row of statistical_bucket_model_with_stability.csv as read by
build_stabilized_model.py: one bucket with its context key, counts and raw
probability (sample_size, batting_team_wins and win_probability are parsed
from the CSV; the remaining stability columns are passed through untouched
and omitted here). -/
structure BucketRow where
  over_bucket : String
  wickets_bucket : String
  run_pressure_bucket : String
  elo_diff_bucket : String
  sample_size : ℕ
  batting_team_wins : ℕ
  win_probability : ℚ
  deriving DecidableEq, Repr

/-- The win rate of a pooled (total, wins) counter. -/
def rateOf (c : ℕ × ℕ) : ℚ := (c.2 : ℚ) / (c.1 : ℚ)

/-- The per-bucket stabilization of build_stabilized_model.py lines 30-91:
pool every row's sample_size and batting_team_wins into the level-2/3/4
prefix aggregates and the global pool, then select the final probability and
fallback level for row r.  Returns (final_stabilized_probability before the
4-decimal output rounding, fallback_level). -/
def stabilize_bucket (rows : List BucketRow) (r : BucketRow) : ℚ × ℕ :=
  let l2 := aggBy (fun q => (q.over_bucket, q.wickets_bucket, q.run_pressure_bucket))
    (fun q => q.sample_size) (fun q => q.batting_team_wins) rows
  let l3 := aggBy (fun q => (q.over_bucket, q.wickets_bucket))
    (fun q => q.sample_size) (fun q => q.batting_team_wins) rows
  let l4 := aggBy (fun q => q.over_bucket)
    (fun q => q.sample_size) (fun q => q.batting_team_wins) rows
  let g := aggBy (fun _ => ()) (fun q => q.sample_size) (fun q => q.batting_team_wins) rows ()
  let global_prob : ℚ := if 0 < g.1 then (g.2 : ℚ) / (g.1 : ℚ) else 1/2
  if MIN_SAMPLE ≤ r.sample_size then (r.win_probability, 1)
  else
    let k2 := (r.over_bucket, r.wickets_bucket, r.run_pressure_bucket)
    let k3 := (r.over_bucket, r.wickets_bucket)
    let k4 := r.over_bucket
    if MIN_SAMPLE ≤ (l2 k2).1 then (rateOf (l2 k2), 2)
    else if MIN_SAMPLE ≤ (l3 k3).1 then (rateOf (l3 k3), 3)
    else if MIN_SAMPLE ≤ (l4 k4).1 then (rateOf (l4 k4), 4)
    else (global_prob, 5)

/-- build_stabilized_model.py: the stabilized output column over all bucket
rows. -/
def build_stabilized_model (rows : List BucketRow) : List (ℚ × ℕ) :=
  rows.map (stabilize_bucket rows)

/-- Reference pool for fallback level 2, written from the specification:
drop the rating-differential dimension and pool every row agreeing on the
remaining three coordinates. -/
def spec_pool2 (rows : List BucketRow) (r : BucketRow) : ℕ × ℕ :=
  (((rows.filter fun q => q.over_bucket = r.over_bucket ∧
      q.wickets_bucket = r.wickets_bucket ∧
      q.run_pressure_bucket = r.run_pressure_bucket).map
        (fun q => q.sample_size)).sum,
   ((rows.filter fun q => q.over_bucket = r.over_bucket ∧
      q.wickets_bucket = r.wickets_bucket ∧
      q.run_pressure_bucket = r.run_pressure_bucket).map
        (fun q => q.batting_team_wins)).sum)

/-- Reference pool for fallback level 3: drop pressure as well. -/
def spec_pool3 (rows : List BucketRow) (r : BucketRow) : ℕ × ℕ :=
  (((rows.filter fun q => q.over_bucket = r.over_bucket ∧
      q.wickets_bucket = r.wickets_bucket).map (fun q => q.sample_size)).sum,
   ((rows.filter fun q => q.over_bucket = r.over_bucket ∧
      q.wickets_bucket = r.wickets_bucket).map (fun q => q.batting_team_wins)).sum)

/-- Reference pool for fallback level 4: progress-phase bucket only. -/
def spec_pool4 (rows : List BucketRow) (r : BucketRow) : ℕ × ℕ :=
  (((rows.filter fun q => q.over_bucket = r.over_bucket).map
      (fun q => q.sample_size)).sum,
   ((rows.filter fun q => q.over_bucket = r.over_bucket).map
      (fun q => q.batting_team_wins)).sum)

/-- Reference global pool (fallback level 5): all rows. -/
def spec_global (rows : List BucketRow) : ℕ × ℕ :=
  ((rows.map (fun q => q.sample_size)).sum, (rows.map (fun q => q.batting_team_wins)).sum)

/-- The hierarchical fallback reference definition, written from the
specification sentence: a bucket with sample_count at least MIN_SAMPLE keeps
its raw probability (level 1); otherwise the first of the level-2/3/4 pools
(in that fixed order) reaching MIN_SAMPLE supplies its pooled win rate; if
none qualifies the global pooled rate is used (level 5). -/
def stabilize_bucket_spec (rows : List BucketRow) (r : BucketRow) : ℚ × ℕ :=
  if MIN_SAMPLE ≤ r.sample_size then (r.win_probability, 1)
  else if MIN_SAMPLE ≤ (spec_pool2 rows r).1 then (rateOf (spec_pool2 rows r), 2)
  else if MIN_SAMPLE ≤ (spec_pool3 rows r).1 then (rateOf (spec_pool3 rows r), 3)
  else if MIN_SAMPLE ≤ (spec_pool4 rows r).1 then (rateOf (spec_pool4 rows r), 4)
  else (rateOf (spec_global rows), 5)

/-- TRAIN_YEARS = 3, the training-window length of the rolling backtest. -/
def TRAIN_YEARS : ℤ := 3

/-- The ordered list of calendar years present in the data:
sorted(set(year(date))) in build_rolling_backtest.py line 190. -/
def allYearsOf (rows : List Snap) : List ℤ :=
  List.insertionSort (· ≤ ·) (rows.map Snap.year).dedup

/-- One evaluated rolling window: its test year, training-window bounds and
the two data partitions. -/
structure BWindow where
  testYear : ℤ
  train_start : ℤ
  train_end : ℤ
  trainRows : List Snap
  testRows : List Snap
  deriving DecidableEq, Repr

/-- The window-selection state machine of build_rolling_backtest.py lines
195-210: for each candidate test year, the window is the preceding
TRAIN_YEARS years; a candidate is skipped when the window starts before the
earliest year (all_years[0]) or either partition is empty. -/
def build_rolling_windows (rows : List Snap) : List BWindow :=
  let all_years := allYearsOf rows
  all_years.filterMap fun test_year =>
    let train_end := test_year - 1
    let train_start := train_end - TRAIN_YEARS + 1
    if train_start < all_years.headI then none
    else
      let train_rows := rows.filter fun r => train_start ≤ r.year ∧ r.year ≤ train_end
      let test_rows := rows.filter fun r => r.year = test_year
      if train_rows = [] ∨ test_rows = [] then none
      else some ⟨test_year, train_start, train_end, train_rows, test_rows⟩

/-- Scoring a window, build_rolling_backtest.py lines 210-221: the model is
rebuilt from the training partition alone and every test row is scored with
its stabilized lookup (projected here to the per-row prediction/outcome
pairs from which the Brier, log-loss and accuracy sums are accumulated). -/
def score_window (w : BWindow) : List (ℚ × ℕ) :=
  w.testRows.map fun row =>
    (build_model_from_rows w.trainRows row, if snapWin row then 1 else 0)

/-- The C2 temporal-isolation property of one evaluated window: the training
window is exactly the three years before the test year, it does not extend
before the earliest year in the data, both partitions are the exact
year-range filters and are non-empty, no training row carries the test year,
and the scored predictions come from the model built on the training-range
filter alone. -/
def windowIsolated (rows : List Snap) (w : BWindow) : Prop :=
  w.train_start = w.testYear - 3 ∧
  w.train_end = w.testYear - 1 ∧
  (allYearsOf rows).headI ≤ w.train_start ∧
  w.trainRows = rows.filter (fun r => w.testYear - 3 ≤ r.year ∧ r.year ≤ w.testYear - 1) ∧
  w.testRows = rows.filter (fun r => r.year = w.testYear) ∧
  w.trainRows ≠ [] ∧ w.testRows ≠ [] ∧
  (∀ r ∈ w.trainRows, r.year ≠ w.testYear) ∧
  score_window w = w.testRows.map (fun row =>
    (build_model_from_rows
      (rows.filter (fun r => w.testYear - 3 ≤ r.year ∧ r.year ≤ w.testYear - 1)) row,
     if snapWin row then 1 else 0))

/-- K_FACTOR = 20 of build_elo_ratings.py. -/
def K_FACTOR : ℝ := 20

/-- INITIAL_RATING = 1500 of build_elo_ratings.py. -/
def INITIAL_RATING : ℝ := 1500

/-- expected_score from build_elo_ratings.py lines 26-27; float arithmetic is
modelled over the reals. -/
noncomputable def expected_score (rating_a rating_b : ℝ) : ℝ :=
  1 / (1 + (10 : ℝ) ^ ((rating_b - rating_a) / 400))

/-- Python round(x, 2): rounding to two decimal places, idealized as
round-to-nearest (Python rounds the underlying binary float half-to-even;
the difference does not matter for any property proved here). -/
noncomputable def round2 (x : ℝ) : ℝ := ((round (x * 100) : ℤ) : ℝ) / 100

/-- update_elo from build_elo_ratings.py lines 30-31. -/
noncomputable def update_elo (rating expected actual : ℝ) : ℝ :=
  round2 (rating + K_FACTOR * (actual - expected))

/-- A contest row of match_metadata.csv as read by the rating engine
(identifying and venue fields are irrelevant to the ratings and omitted). -/
structure MatchRow where
  team_1 : String
  team_2 : String
  winner : String
  deriving DecidableEq, Repr

/-- One row of elo_ratings_history.csv, restricted to the rating fields
(the expected-probability output columns are recomputable from the pre
ratings and are omitted). -/
structure HistRec where
  team_1 : String
  team_2 : String
  winner : String
  pre_1 : ℝ
  pre_2 : ℝ
  post_1 : ℝ
  post_2 : ℝ

/-- One iteration of the loop of build_elo_ratings.py lines 51-93 on rating
state s: read both pre ratings (seeding at INITIAL_RATING on first
appearance is the total function's default), compute both expected scores
independently, score actual = 1 for the side equal to winner and 0
otherwise, update the dict (team_2's write is last, as in the source) and
append the history record. -/
noncomputable def elo_step (s : String → ℝ) (m : MatchRow) : (String → ℝ) × HistRec :=
  let r1 := s m.team_1
  let r2 := s m.team_2
  let e1 := expected_score r1 r2
  let e2 := expected_score r2 r1
  let s1 : ℝ := if m.winner = m.team_1 then 1 else 0
  let s2 : ℝ := if m.winner = m.team_2 then 1 else 0
  let n1 := update_elo r1 e1 s1
  let n2 := update_elo r2 e2 s2
  (fun t => if t = m.team_2 then n2 else if t = m.team_1 then n1 else s t,
   ⟨m.team_1, m.team_2, m.winner, r1, r2, n1, n2⟩)

/-- The full chronological fold of the rating engine, producing the final
ratings and the append-only history in processing order. -/
noncomputable def elo_run (s : String → ℝ) : List MatchRow → (String → ℝ) × List HistRec
  | [] => (s, [])
  | m :: ms =>
    let st := elo_step s m
    let rest := elo_run st.1 ms
    (rest.1, st.2 :: rest.2)

/-- build_elo_ratings from build_elo_ratings.py: run the engine from the
initial state on the date-ordered match list.  Teams never seen keep the
initial value in the state function (the source dict simply has no entry
for them). -/
noncomputable def build_elo_ratings (ms : List MatchRow) : (String → ℝ) × List HistRec :=
  elo_run (fun _ => INITIAL_RATING) ms

/-- The (pre, post) rating pairs of one entity, in contest order, projected
from the history (side 1 when the entity is team_1, side 2 when team_2). -/
def entriesFor (t : String) : List HistRec → List (ℝ × ℝ)
  | [] => []
  | h :: hs =>
    if h.team_1 = t then (h.pre_1, h.post_1) :: entriesFor t hs
    else if h.team_2 = t then (h.pre_2, h.post_2) :: entriesFor t hs
    else entriesFor t hs

/-- A (pre, post) sequence chains from r when the first pre equals r and
every later pre equals the previous post. -/
def chainFrom : ℝ → List (ℝ × ℝ) → Prop
  | _, [] => True
  | r, e :: rest => e.1 = r ∧ chainFrom e.2 rest

/-- The last post value of a (pre, post) sequence, or r for the empty one. -/
def lastVal (r : ℝ) (l : List (ℝ × ℝ)) : ℝ := (l.getLast?.map Prod.snd).getD r

/-- The three cost cases of build_corrected_simulation.py (the source's
unknown-string fallback behaves exactly like gross and is not a reachable
configuration in main). -/
inductive Scen
  | gross
  | realistic
  | worstCase
  deriving DecidableEq, Repr

/-- COMMISSION_RATE = 0.05 of build_corrected_simulation.py. -/
def COMMISSION_RATE : ℚ := 5/100

/-- SLIPPAGE_TICKS = 1. -/
def SLIPPAGE_TICKS : ℚ := 1

/-- TICK_SIZE = 0.02. -/
def TICK_SIZE : ℚ := 2/100

/-- EXECUTION_DELAY_PENALTY = 0.01. -/
def EXECUTION_DELAY_PENALTY : ℚ := 1/100

/-- apply_slippage from build_corrected_simulation.py lines 28-29. -/
def apply_slippage (odds ticks : ℚ) : ℚ := max (101/100) (odds - ticks * TICK_SIZE)

/-- apply_commission from build_corrected_simulation.py lines 32-35. -/
def apply_commission (profit rate : ℚ) : ℚ :=
  if 0 < profit then profit * (1 - rate) else profit

/-- A candidate row of the simulation input CSVs, restricted to the fields
read by run_simulation and the sort key of main. -/
structure SimRow where
  matchId : String
  date : String
  innings : ℤ
  over : ℤ
  edge : ℚ
  model_probability : ℚ
  market_odds : ℚ
  market_prob : ℚ
  battingTeam : String
  eventualWinner : String
  deriving DecidableEq, Repr

/-- An admitted trade, build_corrected_simulation.py lines 99-106. -/
structure Trade where
  matchId : String
  won : Bool
  pnl : ℚ
  odds : ℚ
  effective_odds : ℚ
  commission : ℚ
  deriving DecidableEq, Repr

/-- The effective edge after the execution-delay penalty of the realistic
and worst_case cost cases (lines 58-60). -/
def effective_edge (sc : Scen) (edge : ℚ) : ℚ :=
  match sc with
  | .gross => edge
  | .realistic => edge - EXECUTION_DELAY_PENALTY
  | .worstCase => edge - EXECUTION_DELAY_PENALTY

/-- Did the bet on the batting team win? -/
def won_row (r : SimRow) : Bool := r.battingTeam = r.eventualWinner

/-- The per-scenario trade record of build_corrected_simulation.py lines
69-106: unit stake, PnL (effective_odds - 1) on a win and -1 on a loss,
slippage applied to the odds and commission to positive proceeds in the
priced cost cases. -/
def mk_trade (sc : Scen) (r : SimRow) : Trade :=
  match sc with
  | .gross =>
    { matchId := r.matchId, won := won_row r,
      pnl := if won_row r then r.market_odds - 1 else -1,
      odds := r.market_odds, effective_odds := r.market_odds, commission := 0 }
  | .realistic =>
    let eff := apply_slippage r.market_odds SLIPPAGE_TICKS
    let gross_pnl : ℚ := if won_row r then eff - 1 else -1
    let pnl := apply_commission gross_pnl COMMISSION_RATE
    { matchId := r.matchId, won := won_row r, pnl := pnl,
      odds := r.market_odds, effective_odds := eff,
      commission := if 0 < gross_pnl then gross_pnl - pnl else 0 }
  | .worstCase =>
    let eff := apply_slippage r.market_odds (SLIPPAGE_TICKS * 2)
    let gross_pnl : ℚ := if won_row r then eff - 1 else -1
    let pnl := apply_commission gross_pnl (COMMISSION_RATE * (3/2))
    { matchId := r.matchId, won := won_row r, pnl := pnl,
      odds := r.market_odds, effective_odds := eff,
      commission := if 0 < gross_pnl then gross_pnl - pnl else 0 }

/-- The mutable loop state of run_simulation: the set of matches already
traded, the admitted trades in order, the bankroll (last entry of
bankroll_history), the running peak and the tracked max drawdown. -/
structure SimState where
  seen : List String
  trades : List Trade
  bank : ℚ
  peak : ℚ
  max_drawdown : ℚ
  deriving DecidableEq, Repr

/-- Initial state: bankroll_history = [0.0], peak = 0, max_drawdown = 0. -/
def sim_init : SimState := ⟨[], [], 0, 0, 0⟩

/-- One iteration of the candidate loop of run_simulation
(build_corrected_simulation.py lines 49-112) with first_only = True, the
only configuration main uses: skip when the effective edge is below the
threshold, then skip when the match already traded, otherwise admit the
trade, mark the match as seen, and update bankroll, peak and max drawdown. -/
def sim_step (threshold : ℚ) (sc : Scen) (s : SimState) (r : SimRow) : SimState :=
  if effective_edge sc r.edge < threshold then s
  else if r.matchId ∈ s.seen then s
  else
    let t := mk_trade sc r
    let cumulative := s.bank + t.pnl
    let peak := max s.peak cumulative
    { seen := r.matchId :: s.seen,
      trades := s.trades ++ [t],
      bank := cumulative,
      peak := peak,
      max_drawdown := max s.max_drawdown (peak - cumulative) }

/-- run_simulation from build_corrected_simulation.py: the candidate loop
over the (already sorted) rows. -/
def run_simulation (rows : List SimRow) (threshold : ℚ) (sc : Scen) : SimState :=
  rows.foldl (sim_step threshold sc) sim_init

/-- The lexicographic sort key of main (build_corrected_simulation.py lines
164-165 and 169-170): (date, match_id, innings_number, over_number). -/
def simKey (r : SimRow) : Lex (String × Lex (String × Lex (ℤ × ℤ))) :=
  toLex (r.date, toLex (r.matchId, toLex (r.innings, r.over)))

/-- The iteration order of the simulation candidates. -/
def rowLe (a b : SimRow) : Prop := simKey a ≤ simKey b

instance : DecidableRel rowLe := fun a b =>
  inferInstanceAs (Decidable (simKey a ≤ simKey b))

instance : IsTotal SimRow rowLe := ⟨fun a b => le_total (simKey a) (simKey b)⟩

instance : IsTrans SimRow rowLe := ⟨fun _ _ _ hab hbc => le_trans hab hbc⟩

/-- The sort performed by main before run_simulation. -/
def sort_rows (rows : List SimRow) : List SimRow := List.insertionSort rowLe rows

/-- Reference admission policy, one position per contest: walk the candidate
list in order and admit a row exactly when its effective edge reaches the
threshold and its match has no admitted trade yet. -/
def admit_first_per_match (threshold : ℚ) (sc : Scen) :
    List SimRow → List String → List SimRow
  | [], _ => []
  | r :: rs, seen =>
    if threshold ≤ effective_edge sc r.edge ∧ r.matchId ∉ seen then
      r :: admit_first_per_match threshold sc rs (r.matchId :: seen)
    else admit_first_per_match threshold sc rs seen

/-- The admission policy claimed by the specification for in-play decisions,
one position per contest-and-phase pair: admit a row when its effective edge
reaches the threshold and its (match, innings) pair has no admitted trade
yet. -/
def admit_first_per_match_phase (threshold : ℚ) (sc : Scen) :
    List SimRow → List (String × ℤ) → List SimRow
  | [], _ => []
  | r :: rs, seen =>
    if threshold ≤ effective_edge sc r.edge ∧ (r.matchId, r.innings) ∉ seen then
      r :: admit_first_per_match_phase threshold sc rs ((r.matchId, r.innings) :: seen)
    else admit_first_per_match_phase threshold sc rs seen

/-- One step of the bankroll/drawdown accounting of
build_corrected_simulation.py lines 108-112 (identical in
edge_simulation.py lines 80-84), on state (bankroll, peak, max_drawdown). -/
def dd_step (s : ℚ × ℚ × ℚ) (x : ℚ) : ℚ × ℚ × ℚ :=
  let cumulative := s.1 + x
  let peak := max s.2.1 cumulative
  (cumulative, peak, max s.2.2 (peak - cumulative))

/-- The accounting folded over a PnL stream from (0, 0, 0). -/
def dd_fold (pnls : List ℚ) : ℚ × ℚ × ℚ := pnls.foldl dd_step (0, 0, 0)

/-- The maximum of a list of rationals, at least 0. -/
def listMax (l : List ℚ) : ℚ := l.foldr max 0

/-- Reference running peak, from the specification: the maximum bankroll
(prefix sum) over all prefixes of the trade sequence. -/
def peak_spec (pnls : List ℚ) : ℚ :=
  listMax ((List.range (pnls.length + 1)).map fun k => (pnls.take k).sum)

/-- Reference max drawdown, from the specification: the maximum over all
trade-sequence prefixes of (running peak minus current bankroll). -/
def maxdd_spec (pnls : List ℚ) : ℚ :=
  listMax ((List.range (pnls.length + 1)).map fun k =>
    peak_spec (pnls.take k) - (pnls.take k).sum)

/-- A qualifying in-play candidate of contest M in a given phase (innings),
for counterexample statements. -/
def simRowPhase (inn : ℤ) : SimRow :=
  { matchId := "M", date := "2024-01-01", innings := inn, over := 10,
    edge := 1, model_probability := 1, market_odds := 2, market_prob := 1,
    battingTeam := "A", eventualWinner := "A" }

/-- A raw market-quote row of historical_odds_raw.csv as read by
normalize_odds.py. -/
structure OddsRow where
  matchId : String
  date : String
  team_1 : String
  team_2 : String
  bookmaker_name : String
  team_1_odds : ℚ
  team_2_odds : ℚ
  snapshot_timestamp : String
  deriving DecidableEq, Repr

/-- An output row of historical_odds_normalized.csv. -/
structure NormRow where
  matchId : String
  date : String
  team_1 : String
  team_2 : String
  bookmaker_name : String
  team_1_odds : ℚ
  team_2_odds : ℚ
  team_1_implied_prob : ℚ
  team_2_implied_prob : ℚ
  market_overround : ℚ
  team_1_market_prob : ℚ
  team_2_market_prob : ℚ
  snapshot_timestamp : String
  deriving DecidableEq, Repr

/-- Python round(x, 6), idealized as round to nearest (the half-to-even
tie behaviour of binary floats differs only at exact half-millionth ties,
which no property here depends on). -/
def round6 (x : ℚ) : ℚ := ((round (x * 1000000) : ℤ) : ℚ) / 1000000

/-- The per-row body of the loop in normalize_odds.py lines 27-53: invert
both odds, normalize by the overround, and emit the output row.  No
condition of any kind is tested on the odds. -/
def normalize_row (row : OddsRow) : NormRow :=
  let t1_implied := 1 / row.team_1_odds
  let t2_implied := 1 / row.team_2_odds
  let overround := t1_implied + t2_implied
  { matchId := row.matchId, date := row.date,
    team_1 := row.team_1, team_2 := row.team_2,
    bookmaker_name := row.bookmaker_name,
    team_1_odds := row.team_1_odds, team_2_odds := row.team_2_odds,
    team_1_implied_prob := round6 t1_implied,
    team_2_implied_prob := round6 t2_implied,
    market_overround := round6 overround,
    team_1_market_prob := round6 (t1_implied / overround),
    team_2_market_prob := round6 (t2_implied / overround),
    snapshot_timestamp := row.snapshot_timestamp }

/-- normalize_odds from normalize_odds.py: the loop appends one output row
per input row, unconditionally. -/
def normalize_odds (rows : List OddsRow) : List NormRow :=
  rows.foldl (fun acc row => acc ++ [normalize_row row]) []

/-- A market-quote row with an odds value below 1.0, for counterexample
statements. -/
def badOddsRow : OddsRow :=
  { matchId := "m1", date := "2024-01-01", team_1 := "A", team_2 := "B",
    bookmaker_name := "book", team_1_odds := 1/2, team_2_odds := 2,
    snapshot_timestamp := "t" }

lemma aggBy_loop {α κ : Type} [DecidableEq κ] (f : α → κ) (wt ww : α → ℕ) :
    ∀ (rows : List α) (m : κ → ℕ × ℕ) (k : κ),
      (rows.foldl
        (fun m r => fun k => if f r = k then ((m k).1 + wt r, (m k).2 + ww r) else m k)
        m) k
      = ((m k).1 + ((rows.filter fun a => f a = k).map wt).sum,
         (m k).2 + ((rows.filter fun a => f a = k).map ww).sum)
  | [], m, k => by simp
  | r :: rs, m, k => by
    rw [List.foldl_cons, aggBy_loop f wt ww rs _ k]
    by_cases h : f r = k
    · simp [List.filter_cons, h]
      constructor <;> ring
    · simp [List.filter_cons, h]

/-- Accumulated counts equal the sums of weights over the rows mapped to the
key. -/
lemma aggBy_apply {α κ : Type} [DecidableEq κ] (f : α → κ) (wt ww : α → ℕ)
    (rows : List α) (k : κ) :
    aggBy f wt ww rows k
      = (((rows.filter fun a => f a = k).map wt).sum,
         ((rows.filter fun a => f a = k).map ww).sum) := by
  rw [aggBy, aggBy_loop]
  simp

lemma aggBy_wins_le_total {α κ : Type} [DecidableEq κ] (f : α → κ)
    (wt ww : α → ℕ) (h : ∀ a, ww a ≤ wt a) (rows : List α) (k : κ) :
    (aggBy f wt ww rows k).2 ≤ (aggBy f wt ww rows k).1 := by
  rw [aggBy_apply]
  exact List.sum_le_sum fun a _ => h a

/-- A ratio of naturals with numerator at most denominator lies in the unit
interval (the degenerate 0/0 evaluates to 0). -/
lemma natQuot_mem_unit (w t : ℕ) (h : w ≤ t) :
    0 ≤ (w : ℚ) / (t : ℚ) ∧ (w : ℚ) / (t : ℚ) ≤ 1 := by
  rcases Nat.eq_zero_or_pos t with ht | ht
  · subst ht
    interval_cases w
    norm_num
  · refine ⟨div_nonneg (by positivity) (by positivity), ?_⟩
    rw [div_le_one (by exact_mod_cast ht)]
    exact_mod_cast h

/-- A concrete snapshot used in witness statements. -/
def snapA : Snap :=
  { matchId := "m1", year := 2021, overNumber := 5, wicketsSoFar := 2,
    inningsNumber := 1, runsSoFar := none, requiredRunRate := none,
    battingTeam := "A", eventualWinner := "A", eloDiff := none }

/-- C6: for any non-empty training population, the stabilized lookup of
build_model_from_rows is a total function whose value on every snapshot lies
in the unit interval: the 5-level fallback always terminates with a defined
probability, using the global pooled rate (or its 0.5 empty-pool default)
when no level reaches the minimum sample. -/
theorem c6_stabilized_lookup_total_bounded (train : List Snap) (q : Snap)
    (_h : train ≠ []) :
    0 ≤ build_model_from_rows train q ∧ build_model_from_rows train q ≤ 1 := by
  have hww : ∀ r : Snap, (if snapWin r then 1 else 0) ≤ (fun _ : Snap => 1) r := by
    intro r
    by_cases hw : snapWin r <;> simp [hw]
  unfold build_model_from_rows
  dsimp only
  split_ifs with h1 h2 h3 h4 h5
  · exact natQuot_mem_unit _ _ (aggBy_wins_le_total _ _ _ hww train _)
  · exact natQuot_mem_unit _ _ (aggBy_wins_le_total _ _ _ hww train _)
  · exact natQuot_mem_unit _ _ (aggBy_wins_le_total _ _ _ hww train _)
  · exact natQuot_mem_unit _ _ (aggBy_wins_le_total _ _ _ hww train _)
  · exact natQuot_mem_unit _ _ (aggBy_wins_le_total _ _ _ hww train _)
  · norm_num

/-- C6 witness: the theorem applied to a concrete one-snapshot population. -/
theorem c6_stabilized_lookup_total_bounded_spot :
    [snapA] ≠ ([] : List Snap) ∧
      (0 ≤ build_model_from_rows [snapA] snapA ∧
        build_model_from_rows [snapA] snapA ≤ 1) :=
  ⟨by decide, c6_stabilized_lookup_total_bounded [snapA] snapA (by decide)⟩

/-- C10: a snapshot whose rating-differential cell is the empty/absent marker
is bucketed into the neutral rating band rather than failing, so the full
4-tuple context key is defined for every such snapshot. -/
theorem c10_missing_elo_diff_neutral (r : Snap) (h : r.eloDiff = none) :
    elo_diff_bucket r.eloDiff = "neutral" ∧
      bucketize r = (over_bucket r.overNumber, wickets_bucket r.wicketsSoFar,
        run_pressure_bucket r, "neutral") := by
  rw [bucketize, h]
  exact ⟨rfl, rfl⟩

/-- C10 witness: the theorem applied to a concrete snapshot with an absent
rating differential. -/
theorem c10_missing_elo_diff_neutral_spot :
    snapA.eloDiff = none ∧
      (elo_diff_bucket snapA.eloDiff = "neutral" ∧
        bucketize snapA = (over_bucket snapA.overNumber,
          wickets_bucket snapA.wicketsSoFar, run_pressure_bucket snapA,
          "neutral")) :=
  ⟨rfl, c10_missing_elo_diff_neutral snapA rfl⟩

/-- A concrete bucket row used in witness statements. -/
def bucketRowA : BucketRow :=
  { over_bucket := "1-3", wickets_bucket := "0-1",
    run_pressure_bucket := "first_innings", elo_diff_bucket := "neutral",
    sample_size := 60, batting_team_wins := 30, win_probability := 1/2 }

/-- C1: the stabilized probability (and fallback level) of every bucket
equals the hierarchical fallback reference definition: the raw probability
when the bucket's own sample_count reaches MIN_SAMPLE, otherwise the pooled
rate of the first of levels 2 (drop rating differential), 3 (drop pressure
as well), 4 (progress phase only) whose pooled sample reaches MIN_SAMPLE,
and the global pooled rate when none qualifies.  The hypothesis that the
global pool is non-empty matches the non-empty-population setting of the
specification. -/
theorem c1_stabilize_equals_fallback_spec (rows : List BucketRow) (r : BucketRow)
    (hg : 0 < (spec_global rows).1) :
    stabilize_bucket rows r = stabilize_bucket_spec rows r := by
  have e2 : aggBy (fun q : BucketRow => (q.over_bucket, q.wickets_bucket, q.run_pressure_bucket))
      (fun q => q.sample_size) (fun q => q.batting_team_wins) rows
      (r.over_bucket, r.wickets_bucket, r.run_pressure_bucket) = spec_pool2 rows r := by
    rw [aggBy_apply, spec_pool2]
    have hp : (fun q : BucketRow =>
        decide ((q.over_bucket, q.wickets_bucket, q.run_pressure_bucket)
          = (r.over_bucket, r.wickets_bucket, r.run_pressure_bucket)))
        = (fun q : BucketRow => decide (q.over_bucket = r.over_bucket ∧
            q.wickets_bucket = r.wickets_bucket ∧
            q.run_pressure_bucket = r.run_pressure_bucket)) := by
      funext q
      simp [decide_eq_decide, Prod.ext_iff]
    simp only [hp]
  have e3 : aggBy (fun q : BucketRow => (q.over_bucket, q.wickets_bucket))
      (fun q => q.sample_size) (fun q => q.batting_team_wins) rows
      (r.over_bucket, r.wickets_bucket) = spec_pool3 rows r := by
    rw [aggBy_apply, spec_pool3]
    have hp : (fun q : BucketRow =>
        decide ((q.over_bucket, q.wickets_bucket) = (r.over_bucket, r.wickets_bucket)))
        = (fun q : BucketRow => decide (q.over_bucket = r.over_bucket ∧
            q.wickets_bucket = r.wickets_bucket)) := by
      funext q
      simp [decide_eq_decide, Prod.ext_iff]
    simp only [hp]
  have e4 : aggBy (fun q : BucketRow => q.over_bucket)
      (fun q => q.sample_size) (fun q => q.batting_team_wins) rows
      r.over_bucket = spec_pool4 rows r := by
    rw [aggBy_apply, spec_pool4]
  have eg : aggBy (fun _ : BucketRow => ()) (fun q => q.sample_size)
      (fun q => q.batting_team_wins) rows () = spec_global rows := by
    rw [aggBy_apply, spec_global]
    simp
  rw [stabilize_bucket, stabilize_bucket_spec]
  dsimp only
  rw [e2, e3, e4, eg, if_pos hg, rateOf, rateOf, rateOf, rateOf]

/-- C1 witness: the theorem applied to a concrete one-bucket population whose
sample count reaches the threshold. -/
theorem c1_stabilize_equals_fallback_spec_spot :
    0 < (spec_global [bucketRowA]).1 ∧
      stabilize_bucket [bucketRowA] bucketRowA
        = stabilize_bucket_spec [bucketRowA] bucketRowA :=
  ⟨by decide, c1_stabilize_equals_fallback_spec [bucketRowA] bucketRowA (by decide)⟩

/-- A concrete snapshot in a given year, for witness statements. -/
def snapY (y : ℤ) : Snap :=
  { matchId := "m", year := y, overNumber := 5, wicketsSoFar := 2,
    inningsNumber := 1, runsSoFar := none, requiredRunRate := none,
    battingTeam := "A", eventualWinner := "A", eloDiff := none }

/-- A concrete four-year snapshot population. -/
def rowsB : List Snap := [snapY 2018, snapY 2019, snapY 2020, snapY 2021]

/-- The rolling window the backtest evaluates on rowsB. -/
def winB : BWindow :=
  { testYear := 2021, train_start := 2018, train_end := 2020,
    trainRows := [snapY 2018, snapY 2019, snapY 2020],
    testRows := [snapY 2021] }

/-- C2: every evaluated rolling window trains on exactly the years
[Y-3, Y-1], never extending before the earliest year in the data, with
non-empty partitions; the scoring model is built from training-range rows
only, so no test-year snapshot reaches any count used by the lookup; and
conversely every candidate year whose window is inside the data range and
whose partitions are non-empty is evaluated. -/
theorem c2_training_window_temporal_isolation (rows : List Snap) (w : BWindow)
    (hw : w ∈ build_rolling_windows rows) :
    windowIsolated rows w ∧
      ∀ y ∈ allYearsOf rows,
        (allYearsOf rows).headI ≤ y - 3 →
        rows.filter (fun r => y - 3 ≤ r.year ∧ r.year ≤ y - 1) ≠ [] →
        rows.filter (fun r => r.year = y) ≠ [] →
        ∃ w2 ∈ build_rolling_windows rows, w2.testYear = y := by
  have hTY : ∀ y : ℤ, y - 1 - TRAIN_YEARS + 1 = y - 3 := by
    intro y
    rw [TRAIN_YEARS]
    ring
  constructor
  · simp only [build_rolling_windows, List.mem_filterMap] at hw
    obtain ⟨y, hy, hf⟩ := hw
    by_cases h1 : y - 1 - TRAIN_YEARS + 1 < (allYearsOf rows).headI
    · rw [if_pos h1] at hf
      exact absurd hf (by simp)
    rw [if_neg h1] at hf
    by_cases h2 : (rows.filter fun r => y - 1 - TRAIN_YEARS + 1 ≤ r.year ∧ r.year ≤ y - 1) = [] ∨
        (rows.filter fun r => r.year = y) = []
    · rw [if_pos h2] at hf
      exact absurd hf (by simp)
    rw [if_neg h2, Option.some_inj] at hf
    subst hf
    push_neg at h2
    rw [not_lt] at h1
    refine ⟨by rw [hTY], rfl, by rw [hTY] at h1 ⊢; exact h1, ?_, rfl, h2.1, h2.2, ?_, ?_⟩
    · simp only [hTY]
    · intro r hr
      simp only [List.mem_filter, decide_eq_true_eq] at hr
      rw [hTY] at hr
      show r.year ≠ y
      omega
    · rw [score_window]
      simp only [hTY]
  · intro y hy hh ht hs
    refine ⟨⟨y, y - 3, y - 1,
      rows.filter (fun r => y - 3 ≤ r.year ∧ r.year ≤ y - 1),
      rows.filter (fun r => r.year = y)⟩, ?_, rfl⟩
    simp only [build_rolling_windows, List.mem_filterMap]
    refine ⟨y, hy, ?_⟩
    simp only [hTY]
    have hne : ¬(rows.filter (fun r => y - 3 ≤ r.year ∧ r.year ≤ y - 1) = [] ∨
        rows.filter (fun r => r.year = y) = []) := by
      push_neg
      exact ⟨ht, hs⟩
    rw [if_neg (not_lt.mpr hh), if_neg hne]

/-- C2 witness: the theorem applied to the concrete four-year population and
its evaluated window. -/
theorem c2_training_window_temporal_isolation_spot :
    winB ∈ build_rolling_windows rowsB ∧
      (windowIsolated rowsB winB ∧
        ∀ y ∈ allYearsOf rowsB,
          (allYearsOf rowsB).headI ≤ y - 3 →
          rowsB.filter (fun r => y - 3 ≤ r.year ∧ r.year ≤ y - 1) ≠ [] →
          rowsB.filter (fun r => r.year = y) ≠ [] →
          ∃ w2 ∈ build_rolling_windows rowsB, w2.testYear = y) :=
  ⟨by decide, c2_training_window_temporal_isolation rowsB winB (by decide)⟩

lemma lastVal_cons (r : ℝ) (e : ℝ × ℝ) (l : List (ℝ × ℝ)) :
    lastVal r (e :: l) = lastVal e.2 l := by
  cases l with
  | nil => simp [lastVal]
  | cons x xs =>
    rw [lastVal, lastVal, List.getLast?_cons_cons]
    cases hx : (x :: xs).getLast? with
    | none => exact absurd hx (by simp)
    | some y => simp

lemma elo_step_fst (s : String → ℝ) (m : MatchRow) (t : String) :
    (elo_step s m).1 t
      = if t = m.team_2 then
          update_elo (s m.team_2) (expected_score (s m.team_2) (s m.team_1))
            (if m.winner = m.team_2 then 1 else 0)
        else if t = m.team_1 then
          update_elo (s m.team_1) (expected_score (s m.team_1) (s m.team_2))
            (if m.winner = m.team_1 then 1 else 0)
        else s t := rfl

lemma elo_step_snd (s : String → ℝ) (m : MatchRow) :
    (elo_step s m).2
      = ⟨m.team_1, m.team_2, m.winner, s m.team_1, s m.team_2,
         update_elo (s m.team_1) (expected_score (s m.team_1) (s m.team_2))
           (if m.winner = m.team_1 then 1 else 0),
         update_elo (s m.team_2) (expected_score (s m.team_2) (s m.team_1))
           (if m.winner = m.team_2 then 1 else 0)⟩ := rfl

lemma elo_run_chain (ms : List MatchRow)
    (hms : ∀ m ∈ ms, m.team_1 ≠ m.team_2) (s : String → ℝ) (t : String) :
    chainFrom (s t) (entriesFor t (elo_run s ms).2) ∧
      (elo_run s ms).1 t = lastVal (s t) (entriesFor t (elo_run s ms).2) := by
  induction ms generalizing s with
  | nil => simp [elo_run, entriesFor, chainFrom, lastVal]
  | cons m ms ih =>
    have hm : m.team_1 ≠ m.team_2 := hms m (by simp)
    have hms2 : ∀ m2 ∈ ms, m2.team_1 ≠ m2.team_2 := fun m2 h2 => hms m2 (by simp [h2])
    have hrun : elo_run s (m :: ms)
        = ((elo_run (elo_step s m).1 ms).1, (elo_step s m).2 :: (elo_run (elo_step s m).1 ms).2) := rfl
    rw [hrun]
    by_cases h1 : m.team_1 = t
    · have hne2 : ¬ t = m.team_2 := by
        rw [← h1]
        exact hm
      have hstate : (elo_step s m).1 t
          = update_elo (s m.team_1) (expected_score (s m.team_1) (s m.team_2))
              (if m.winner = m.team_1 then 1 else 0) := by
        rw [elo_step_fst, if_neg hne2, if_pos h1.symm]
      have hent : entriesFor t ((elo_step s m).2 :: (elo_run (elo_step s m).1 ms).2)
          = (s m.team_1,
             update_elo (s m.team_1) (expected_score (s m.team_1) (s m.team_2))
               (if m.winner = m.team_1 then 1 else 0))
            :: entriesFor t (elo_run (elo_step s m).1 ms).2 := by
        rw [elo_step_snd, entriesFor]
        simp [h1]
      rw [hent]
      obtain ⟨ihc, ihv⟩ := ih hms2 (elo_step s m).1
      rw [hstate] at ihc ihv
      refine ⟨⟨by rw [h1], ihc⟩, ?_⟩
      rw [lastVal_cons]
      exact ihv
    · by_cases h2 : m.team_2 = t
      · have hstate : (elo_step s m).1 t
            = update_elo (s m.team_2) (expected_score (s m.team_2) (s m.team_1))
                (if m.winner = m.team_2 then 1 else 0) := by
          rw [elo_step_fst, if_pos h2.symm]
        have hent : entriesFor t ((elo_step s m).2 :: (elo_run (elo_step s m).1 ms).2)
            = (s m.team_2,
               update_elo (s m.team_2) (expected_score (s m.team_2) (s m.team_1))
                 (if m.winner = m.team_2 then 1 else 0))
              :: entriesFor t (elo_run (elo_step s m).1 ms).2 := by
          rw [elo_step_snd, entriesFor]
          simp [h1, h2]
        rw [hent]
        obtain ⟨ihc, ihv⟩ := ih hms2 (elo_step s m).1
        rw [hstate] at ihc ihv
        refine ⟨⟨by rw [h2], ihc⟩, ?_⟩
        rw [lastVal_cons]
        exact ihv
      · have hstate : (elo_step s m).1 t = s t := by
          rw [elo_step_fst, if_neg (fun he => h2 he.symm), if_neg (fun he => h1 he.symm)]
        have hent : entriesFor t ((elo_step s m).2 :: (elo_run (elo_step s m).1 ms).2)
            = entriesFor t (elo_run (elo_step s m).1 ms).2 := by
          rw [elo_step_snd, entriesFor]
          simp [h1, h2]
        rw [hent]
        obtain ⟨ihc, ihv⟩ := ih hms2 (elo_step s m).1
        rw [hstate] at ihc ihv
        exact ⟨ihc, ihv⟩

lemma elo_run_posts (ms : List MatchRow) (s : String → ℝ) :
    ∀ h ∈ (elo_run s ms).2,
      h.post_1 = update_elo h.pre_1 (expected_score h.pre_1 h.pre_2)
        (if h.winner = h.team_1 then 1 else 0) ∧
      h.post_2 = update_elo h.pre_2 (expected_score h.pre_2 h.pre_1)
        (if h.winner = h.team_2 then 1 else 0) := by
  induction ms generalizing s with
  | nil => simp [elo_run]
  | cons m ms ih =>
    intro h hh
    have hrun : (elo_run s (m :: ms)).2
        = (elo_step s m).2 :: (elo_run (elo_step s m).1 ms).2 := rfl
    rw [hrun, List.mem_cons] at hh
    rcases hh with hh | hh
    · subst hh
      rw [elo_step_snd]
      exact ⟨rfl, rfl⟩
    · exact ih (elo_step s m).1 h hh

lemma elo_run_length (ms : List MatchRow) (s : String → ℝ) :
    (elo_run s ms).2.length = ms.length := by
  induction ms generalizing s with
  | nil => rfl
  | cons m ms ih =>
    have hrun : (elo_run s (m :: ms)).2
        = (elo_step s m).2 :: (elo_run (elo_step s m).1 ms).2 := rfl
    rw [hrun, List.length_cons, ih]
    rfl

/-- C4: the two independently computed logistic expected scores of a contest
are exact complements: expected_score a b = 1 - expected_score b a for all
real ratings (so the floating-point values agree to rounding error). -/
theorem c4_expected_scores_complementary (a b : ℝ) :
    expected_score a b = 1 - expected_score b a := by
  have hpos : (0 : ℝ) < (10 : ℝ) ^ ((b - a) / 400) :=
    Real.rpow_pos_of_pos (by norm_num) _
  have hneg : (10 : ℝ) ^ ((a - b) / 400) = ((10 : ℝ) ^ ((b - a) / 400))⁻¹ := by
    rw [show (a - b) / 400 = -((b - a) / 400) by ring,
      Real.rpow_neg (by norm_num : (0:ℝ) ≤ 10)]
  rw [expected_score, expected_score, hneg]
  have ht0 : (10 : ℝ) ^ ((b - a) / 400) ≠ 0 := ne_of_gt hpos
  have ht1 : 1 + (10 : ℝ) ^ ((b - a) / 400) ≠ 0 := by positivity
  have ht2 : 1 + ((10 : ℝ) ^ ((b - a) / 400))⁻¹ ≠ 0 := by positivity
  field_simp
  ring

/-- C5: the stored rating history chains exactly: for every entity the pre
rating of its contest n+1 equals the post rating of its contest n, the first
pre rating is INITIAL_RATING, the final rating equals the last stored post
rating (INITIAL_RATING when the entity never played), and every stored post
rating is the update rule applied to the stored pre ratings, so replaying
the updates from the initial rating reproduces the history. -/
theorem c5_rating_history_chains (ms : List MatchRow)
    (hms : ∀ m ∈ ms, m.team_1 ≠ m.team_2) (t : String) :
    chainFrom INITIAL_RATING (entriesFor t (build_elo_ratings ms).2) ∧
      (build_elo_ratings ms).1 t
        = lastVal INITIAL_RATING (entriesFor t (build_elo_ratings ms).2) ∧
      ∀ h ∈ (build_elo_ratings ms).2,
        h.post_1 = update_elo h.pre_1 (expected_score h.pre_1 h.pre_2)
          (if h.winner = h.team_1 then 1 else 0) ∧
        h.post_2 = update_elo h.pre_2 (expected_score h.pre_2 h.pre_1)
          (if h.winner = h.team_2 then 1 else 0) := by
  obtain ⟨hc, hv⟩ := elo_run_chain ms hms (fun _ => INITIAL_RATING) t
  exact ⟨hc, hv, elo_run_posts ms (fun _ => INITIAL_RATING)⟩

/-- C5 witness: the theorem applied to the concrete three-contest sequence
A beats B, B beats A, A beats B. -/
theorem c5_rating_history_chains_spot :
    (∀ m ∈ [(⟨"A", "B", "A"⟩ : MatchRow), ⟨"B", "A", "B"⟩, ⟨"A", "B", "A"⟩],
        m.team_1 ≠ m.team_2) ∧
      (chainFrom INITIAL_RATING (entriesFor "A"
          (build_elo_ratings [⟨"A", "B", "A"⟩, ⟨"B", "A", "B"⟩, ⟨"A", "B", "A"⟩]).2) ∧
        (build_elo_ratings [⟨"A", "B", "A"⟩, ⟨"B", "A", "B"⟩, ⟨"A", "B", "A"⟩]).1 "A"
          = lastVal INITIAL_RATING (entriesFor "A"
              (build_elo_ratings [⟨"A", "B", "A"⟩, ⟨"B", "A", "B"⟩, ⟨"A", "B", "A"⟩]).2) ∧
        ∀ h ∈ (build_elo_ratings [⟨"A", "B", "A"⟩, ⟨"B", "A", "B"⟩, ⟨"A", "B", "A"⟩]).2,
          h.post_1 = update_elo h.pre_1 (expected_score h.pre_1 h.pre_2)
            (if h.winner = h.team_1 then 1 else 0) ∧
          h.post_2 = update_elo h.pre_2 (expected_score h.pre_2 h.pre_1)
            (if h.winner = h.team_2 then 1 else 0)) :=
  ⟨by decide,
    c5_rating_history_chains [⟨"A", "B", "A"⟩, ⟨"B", "A", "B"⟩, ⟨"A", "B", "A"⟩]
      (by decide) "A"⟩

/-- C8 counterexample: a contest without a recorded winner is not rejected.
build_elo_ratings on the single contest (A, B, empty winner) returns
normally and emits a processed history row in which both sides were scored
actual = 0: both ratings drop from 1500 to 1490.  No MissingOutcome failure
exists anywhere in the engine (the embedding, like the source, is a total
function with no error channel). -/
theorem c8_missing_winner_cx :
    (build_elo_ratings [⟨"A", "B", ""⟩]).2
      = [⟨"A", "B", "", 1500, 1500, 1490, 1490⟩] := by
  have he : expected_score 1500 1500 = 1/2 := by
    rw [expected_score, show ((1500:ℝ) - 1500) / 400 = 0 by norm_num, Real.rpow_zero]
    norm_num
  have hu : update_elo 1500 (1/2) 0 = 1490 := by
    rw [update_elo, round2]
    norm_num [K_FACTOR]
  have hrec : (build_elo_ratings [⟨"A", "B", ""⟩]).2
      = [(elo_step (fun _ => INITIAL_RATING) ⟨"A", "B", ""⟩).2] := rfl
  rw [hrec, elo_step_snd]
  dsimp only
  rw [if_neg (by decide : ¬ ("" : String) = "A"),
    if_neg (by decide : ¬ ("" : String) = "B")]
  simp only [INITIAL_RATING]
  rw [he, hu]

/-- C8 amended: the rating engine never fails on (and never excludes) a
contest lacking a recorded winner; it processes every contest (one history
row per input row), and when the winner field matches neither entity both
sides are scored actual = 0, so the outcome is silently defaulted to a loss
for both rather than raising a MissingOutcome error. -/
theorem c8_missing_winner_defaulted (s : String → ℝ) (m : MatchRow)
    (h1 : m.winner ≠ m.team_1) (h2 : m.winner ≠ m.team_2) :
    (elo_step s m).2.post_1
      = update_elo (s m.team_1) (expected_score (s m.team_1) (s m.team_2)) 0 ∧
    (elo_step s m).2.post_2
      = update_elo (s m.team_2) (expected_score (s m.team_2) (s m.team_1)) 0 ∧
    ∀ ms : List MatchRow, (build_elo_ratings ms).2.length = ms.length := by
  refine ⟨?_, ?_, fun ms => elo_run_length ms _⟩
  · rw [elo_step_snd]
    simp [h1]
  · rw [elo_step_snd]
    simp [h2]

/-- C8 witness: the amended theorem applied to the concrete winnerless
contest. -/
theorem c8_missing_winner_defaulted_spot :
    ((⟨"A", "B", ""⟩ : MatchRow).winner ≠ (⟨"A", "B", ""⟩ : MatchRow).team_1) ∧
    ((⟨"A", "B", ""⟩ : MatchRow).winner ≠ (⟨"A", "B", ""⟩ : MatchRow).team_2) ∧
    ((elo_step (fun _ => INITIAL_RATING) ⟨"A", "B", ""⟩).2.post_1
        = update_elo ((fun _ => INITIAL_RATING) (⟨"A", "B", ""⟩ : MatchRow).team_1)
            (expected_score ((fun _ => INITIAL_RATING) (⟨"A", "B", ""⟩ : MatchRow).team_1)
              ((fun _ => INITIAL_RATING) (⟨"A", "B", ""⟩ : MatchRow).team_2)) 0 ∧
      (elo_step (fun _ => INITIAL_RATING) ⟨"A", "B", ""⟩).2.post_2
        = update_elo ((fun _ => INITIAL_RATING) (⟨"A", "B", ""⟩ : MatchRow).team_2)
            (expected_score ((fun _ => INITIAL_RATING) (⟨"A", "B", ""⟩ : MatchRow).team_2)
              ((fun _ => INITIAL_RATING) (⟨"A", "B", ""⟩ : MatchRow).team_1)) 0 ∧
      ∀ ms : List MatchRow, (build_elo_ratings ms).2.length = ms.length) :=
  ⟨by decide, by decide,
    c8_missing_winner_defaulted (fun _ => INITIAL_RATING) ⟨"A", "B", ""⟩
      (by decide) (by decide)⟩

lemma run_sim_trades (threshold : ℚ) (sc : Scen) :
    ∀ (rows : List SimRow) (s : SimState),
      (rows.foldl (sim_step threshold sc) s).trades
        = s.trades ++ (admit_first_per_match threshold sc rows s.seen).map (mk_trade sc)
  | [], s => by simp [admit_first_per_match]
  | r :: rs, s => by
    rw [List.foldl_cons]
    by_cases hq : effective_edge sc r.edge < threshold
    · rw [show sim_step threshold sc s r = s from by rw [sim_step, if_pos hq]]
      rw [run_sim_trades threshold sc rs s]
      rw [show admit_first_per_match threshold sc (r :: rs) s.seen
          = admit_first_per_match threshold sc rs s.seen from by
        rw [admit_first_per_match, if_neg (fun hc => absurd hc.1 (not_le.mpr hq))]]
    · by_cases hs : r.matchId ∈ s.seen
      · rw [show sim_step threshold sc s r = s from by
          rw [sim_step, if_neg hq, if_pos hs]]
        rw [run_sim_trades threshold sc rs s]
        rw [show admit_first_per_match threshold sc (r :: rs) s.seen
            = admit_first_per_match threshold sc rs s.seen from by
          rw [admit_first_per_match, if_neg (fun hc => hc.2 hs)]]
      · have hstep : sim_step threshold sc s r
            = { seen := r.matchId :: s.seen,
                trades := s.trades ++ [mk_trade sc r],
                bank := s.bank + (mk_trade sc r).pnl,
                peak := max s.peak (s.bank + (mk_trade sc r).pnl),
                max_drawdown := max s.max_drawdown
                  (max s.peak (s.bank + (mk_trade sc r).pnl)
                    - (s.bank + (mk_trade sc r).pnl)) } := by
          rw [sim_step, if_neg hq, if_neg hs]
        rw [hstep, run_sim_trades threshold sc rs _]
        rw [show admit_first_per_match threshold sc (r :: rs) s.seen
            = r :: admit_first_per_match threshold sc rs (r.matchId :: s.seen) from by
          rw [admit_first_per_match, if_pos ⟨not_lt.mp hq, hs⟩]]
        rw [List.map_cons]
        simp

lemma run_sim_dd (threshold : ℚ) (sc : Scen) :
    ∀ (rows : List SimRow) (s : SimState),
      ((rows.foldl (sim_step threshold sc) s).bank,
       (rows.foldl (sim_step threshold sc) s).peak,
       (rows.foldl (sim_step threshold sc) s).max_drawdown)
        = List.foldl dd_step (s.bank, s.peak, s.max_drawdown)
            ((admit_first_per_match threshold sc rows s.seen).map fun r => (mk_trade sc r).pnl)
  | [], s => by simp [admit_first_per_match]
  | r :: rs, s => by
    rw [List.foldl_cons]
    by_cases hq : effective_edge sc r.edge < threshold
    · rw [show sim_step threshold sc s r = s from by rw [sim_step, if_pos hq]]
      rw [run_sim_dd threshold sc rs s]
      rw [show admit_first_per_match threshold sc (r :: rs) s.seen
          = admit_first_per_match threshold sc rs s.seen from by
        rw [admit_first_per_match, if_neg (fun hc => absurd hc.1 (not_le.mpr hq))]]
    · by_cases hs : r.matchId ∈ s.seen
      · rw [show sim_step threshold sc s r = s from by
          rw [sim_step, if_neg hq, if_pos hs]]
        rw [run_sim_dd threshold sc rs s]
        rw [show admit_first_per_match threshold sc (r :: rs) s.seen
            = admit_first_per_match threshold sc rs s.seen from by
          rw [admit_first_per_match, if_neg (fun hc => hc.2 hs)]]
      · have hstep : sim_step threshold sc s r
            = { seen := r.matchId :: s.seen,
                trades := s.trades ++ [mk_trade sc r],
                bank := s.bank + (mk_trade sc r).pnl,
                peak := max s.peak (s.bank + (mk_trade sc r).pnl),
                max_drawdown := max s.max_drawdown
                  (max s.peak (s.bank + (mk_trade sc r).pnl)
                    - (s.bank + (mk_trade sc r).pnl)) } := by
          rw [sim_step, if_neg hq, if_neg hs]
        rw [hstep, run_sim_dd threshold sc rs _]
        rw [show admit_first_per_match threshold sc (r :: rs) s.seen
            = r :: admit_first_per_match threshold sc rs (r.matchId :: s.seen) from by
          rw [admit_first_per_match, if_pos ⟨not_lt.mp hq, hs⟩]]
        rw [List.map_cons, List.foldl_cons, dd_step]

lemma admit_ids_nodup (threshold : ℚ) (sc : Scen) :
    ∀ (rows : List SimRow) (seen : List String),
      ((admit_first_per_match threshold sc rows seen).map (fun r => r.matchId)).Nodup ∧
        ∀ r ∈ admit_first_per_match threshold sc rows seen, r.matchId ∉ seen
  | [], seen => by simp [admit_first_per_match]
  | r :: rs, seen => by
    rw [admit_first_per_match]
    by_cases hc : threshold ≤ effective_edge sc r.edge ∧ r.matchId ∉ seen
    · rw [if_pos hc]
      obtain ⟨ihn, ihs⟩ := admit_ids_nodup threshold sc rs (r.matchId :: seen)
      refine ⟨?_, ?_⟩
      · rw [List.map_cons, List.nodup_cons]
        refine ⟨?_, ihn⟩
        intro hmem
        rw [List.mem_map] at hmem
        obtain ⟨q, hq, hqid⟩ := hmem
        exact (ihs q hq) (by rw [hqid]; exact List.mem_cons_self _ _)
      · intro q hq
        rw [List.mem_cons] at hq
        rcases hq with hq | hq
        · subst hq
          exact hc.2
        · exact fun hqs => (ihs q hq) (List.mem_cons_of_mem _ hqs)
    · rw [if_neg hc]
      exact admit_ids_nodup threshold sc rs seen

lemma rowLe_iff (a b : SimRow) :
    rowLe a b ↔
      (a.date < b.date ∨ (a.date = b.date ∧ (a.matchId < b.matchId ∨
        (a.matchId = b.matchId ∧ (a.innings < b.innings ∨
          (a.innings = b.innings ∧ a.over ≤ b.over)))))) := by
  rw [rowLe, simKey, simKey]
  simp [Prod.Lex.le_iff]

lemma listMax_append (l : List ℚ) (x : ℚ) :
    listMax (l ++ [x]) = max (listMax l) x := by
  induction l with
  | nil => simp [listMax, max_comm]
  | cons y ys ih =>
    show max y (listMax (ys ++ [x])) = max (max y (listMax ys)) x
    rw [ih, max_assoc]

lemma peak_spec_append (l : List ℚ) (x : ℚ) :
    peak_spec (l ++ [x]) = max (peak_spec l) ((l ++ [x]).sum) := by
  rw [peak_spec, peak_spec]
  have hlen : (l ++ [x]).length = l.length + 1 := by simp
  rw [hlen, List.range_succ, List.map_append, List.map_singleton, listMax_append]
  congr 1
  · congr 1
    apply List.map_congr_left
    intro k hk
    rw [List.mem_range] at hk
    rw [List.take_append_of_le_length (by omega)]
  · rw [← hlen, List.take_length]

lemma maxdd_spec_append (l : List ℚ) (x : ℚ) :
    maxdd_spec (l ++ [x])
      = max (maxdd_spec l) (peak_spec (l ++ [x]) - (l ++ [x]).sum) := by
  rw [maxdd_spec, maxdd_spec]
  have hlen : (l ++ [x]).length = l.length + 1 := by simp
  rw [hlen, List.range_succ, List.map_append, List.map_singleton, listMax_append]
  congr 1
  · congr 1
    apply List.map_congr_left
    intro k hk
    rw [List.mem_range] at hk
    rw [List.take_append_of_le_length (by omega)]
  · rw [← hlen, List.take_length]

lemma dd_fold_spec (pnls : List ℚ) :
    dd_fold pnls = (pnls.sum, peak_spec pnls, maxdd_spec pnls) := by
  induction pnls using List.reverseRecOn with
  | nil =>
    show ((0 : ℚ), (0 : ℚ), (0 : ℚ)) = _
    simp [peak_spec, maxdd_spec, listMax, List.range_succ]
  | append_singleton l x ih =>
    rw [dd_fold, List.foldl_append,
      show List.foldl dd_step (0, 0, 0) l = dd_fold l from rfl, ih]
    show dd_step (l.sum, peak_spec l, maxdd_spec l) x = _
    rw [dd_step]
    dsimp only
    have hs : (l ++ [x]).sum = l.sum + x := by simp
    rw [maxdd_spec_append, peak_spec_append, hs]

/-- C7 counterexample: two qualifying in-play candidates of the same
contest in different phases (innings 1 and innings 2), iterated in sorted
order with threshold 0.  run_simulation admits only the first candidate —
its one-trade set is keyed by match_id alone — while the claimed
one-position-per-contest-and-phase policy admits both, so the claim as
stated fails on this input. -/
theorem c7_per_phase_cx :
    (run_simulation [simRowPhase 1, simRowPhase 2] 0 Scen.gross).trades.length = 1 ∧
      (admit_first_per_match_phase 0 Scen.gross [simRowPhase 1, simRowPhase 2] []).length = 2 := by
  constructor
  · norm_num [run_simulation, sim_init, sim_step, List.foldl, effective_edge,
      simRowPhase, mk_trade, won_row]
  · norm_num [admit_first_per_match_phase, effective_edge, simRowPhase]

/-- C7 amended: main sorts the candidates by (date, contest, innings, over)
and run_simulation admits at most one trade per contest — the risk unit is
the whole match_id even for in-play candidates, not a contest-plus-phase
pair — taking the first qualifying opportunity (effective edge at or above
the threshold) and rejecting every later candidate of the same contest:
the admitted trades are exactly the first-qualifying-per-match selection of
the candidate list, and their match ids are pairwise distinct. -/
theorem c7_one_trade_per_contest (rows : List SimRow) (threshold : ℚ) (sc : Scen) :
    (sort_rows rows).Sorted rowLe ∧
    List.Perm (sort_rows rows) rows ∧
    (run_simulation rows threshold sc).trades
      = (admit_first_per_match threshold sc rows []).map (mk_trade sc) ∧
    ((admit_first_per_match threshold sc rows []).map (fun r => r.matchId)).Nodup ∧
    ∀ a b : SimRow, rowLe a b ↔
      (a.date < b.date ∨ (a.date = b.date ∧ (a.matchId < b.matchId ∨
        (a.matchId = b.matchId ∧ (a.innings < b.innings ∨
          (a.innings = b.innings ∧ a.over ≤ b.over)))))) := by
  refine ⟨List.sorted_insertionSort _ _, List.perm_insertionSort _ _, ?_,
    (admit_ids_nodup threshold sc rows []).1, rowLe_iff⟩
  have h := run_sim_trades threshold sc rows sim_init
  rw [run_simulation]
  rw [h]
  rfl

/-- C3 counterexample: on the PnL stream [+1, +1, -1, -1, -1, +1] the
tracked max drawdown of the simulation accounting is 3 (peak 2, trough -1),
not 2 as the claim states. -/
theorem c3_drawdown_stream_cx :
    (dd_fold [1, 1, -1, -1, -1, 1]).2.2 = 3 ∧
      ¬ (dd_fold [1, 1, -1, -1, -1, 1]).2.2 = 2 := by
  have h : (dd_fold [1, 1, -1, -1, -1, 1]).2.2 = 3 := by
    norm_num [dd_fold, dd_step, List.foldl, max_def]
  refine ⟨h, ?_⟩
  rw [h]
  norm_num

/-- C3 amended: in a simulation run the bankroll is the running cumulative
sum of trade PnL from 0 and the reported max_drawdown equals the maximum
over all trade-sequence prefixes of (running peak minus current bankroll);
this tracked value is monotonically non-decreasing trade by trade; and for
the PnL stream [+1, +1, -1, -1, -1, +1] it equals 3 (the claim's value 2
miscomputes the running peak). -/
theorem c3_drawdown_prefix_max (rows : List SimRow) (threshold : ℚ) (sc : Scen) :
    ((run_simulation rows threshold sc).bank
        = ((run_simulation rows threshold sc).trades.map Trade.pnl).sum ∧
      (run_simulation rows threshold sc).max_drawdown
        = maxdd_spec ((run_simulation rows threshold sc).trades.map Trade.pnl)) ∧
    (∀ (l : List ℚ) (x : ℚ), maxdd_spec l ≤ maxdd_spec (l ++ [x])) ∧
    (∀ pnls : List ℚ, dd_fold pnls = (pnls.sum, peak_spec pnls, maxdd_spec pnls)) ∧
    (dd_fold [1, 1, -1, -1, -1, 1]).2.2 = 3 := by
  refine ⟨?_, ?_, dd_fold_spec, ?_⟩
  · have ht := run_sim_trades threshold sc rows sim_init
    have hd := run_sim_dd threshold sc rows sim_init
    have hpn : (run_simulation rows threshold sc).trades.map Trade.pnl
        = (admit_first_per_match threshold sc rows sim_init.seen).map
            fun r => (mk_trade sc r).pnl := by
      rw [run_simulation, ht, List.map_append, List.map_map]
      rfl
    have hdd : ((run_simulation rows threshold sc).bank,
        (run_simulation rows threshold sc).peak,
        (run_simulation rows threshold sc).max_drawdown)
        = dd_fold ((run_simulation rows threshold sc).trades.map Trade.pnl) := by
      rw [hpn, run_simulation, dd_fold]
      exact hd
    rw [dd_fold_spec] at hdd
    exact ⟨congrArg (fun p => p.1) hdd, congrArg (fun p => p.2.2) hdd⟩
  · intro l x
    rw [maxdd_spec_append]
    exact le_max_left _ _
  · norm_num [dd_fold, dd_step, List.foldl, max_def]

/-- C9 counterexample: a market-quote row with team_1 odds 1/2 (at most
1.0) is not rejected: normalize_odds processes it into a full output row
whose implied probability is 2, and no InvalidOdds error exists anywhere in
normalize_odds (the embedding, like the source, is a total function with no
error channel). -/
theorem c9_invalid_odds_cx :
    badOddsRow.team_1_odds ≤ 1 ∧
      normalize_odds [badOddsRow]
        = [{ matchId := "m1", date := "2024-01-01", team_1 := "A",
             team_2 := "B", bookmaker_name := "book",
             team_1_odds := 1/2, team_2_odds := 2,
             team_1_implied_prob := 2, team_2_implied_prob := 1/2,
             market_overround := 5/2,
             team_1_market_prob := 4/5, team_2_market_prob := 1/5,
             snapshot_timestamp := "t" }] := by
  constructor
  · norm_num [badOddsRow]
  · norm_num [normalize_odds, normalize_row, round6, badOddsRow, List.foldl,
      round_eq]

/-- C9 amended: odds normalization performs no validation at all: there is
no InvalidOdds rejection; every input row — including rows with odds at or
below 1.0 — is converted to exactly one output row of implied
probabilities, and the whole input is processed. -/
theorem c9_no_invalid_odds_rejection (rows : List OddsRow) :
    normalize_odds rows = rows.map normalize_row ∧
    (normalize_odds rows).length = rows.length ∧
    ∀ row ∈ rows, normalize_row row ∈ normalize_odds rows := by
  have h : ∀ (l : List OddsRow) (acc : List NormRow),
      l.foldl (fun acc row => acc ++ [normalize_row row]) acc
        = acc ++ l.map normalize_row := by
    intro l
    induction l with
    | nil => intro acc; simp
    | cons r rs ih =>
      intro acc
      rw [List.foldl_cons, ih]
      simp
  have h0 : normalize_odds rows = rows.map normalize_row := by
    rw [normalize_odds, h]
    simp
  refine ⟨h0, by rw [h0, List.length_map], ?_⟩
  intro row hrow
  rw [h0]
  exact List.mem_map_of_mem _ hrow

end Crickedge
